import Mathlib

/-!
Verification of the agent-orchestration engine of this repository against its
natural-language specification.

The definitions below are a shallow embedding of the Python sources:

* `src/fscm/orchestrator.py` — `AgentRunner._invoke_with_retry` (retry/backoff
  policy), `AgentRunner.run` (conversation loop), `Orchestrator.run`
  (supervisor delegation loop);
* `src/fscm/markdown_processor.py` — `format_previous_answers`,
  `process_questions` (sequential Q&A pipeline), `write_answers_to_markdown`
  (answer insertion).

External collaborators (the model provider, the bound tool set, the delegate
registry) are parameters of the embedded functions, exactly as they are
attributes read — but never written — by the embedded methods.
-/

namespace FSCM

/-! ## String utilities

Python's `in` (substring test), `str.strip`, `str.lower`, `"\n".join` used by
the embedded code, modelled over `List Char` / `String`.
-/

/-- Test whether the first list is an initial segment of the second
(Python `str.startswith` over characters). -/
def charsLead : List Char → List Char → Bool
  | [], _ => true
  | _ :: _, [] => false
  | a :: as, b :: bs => a == b && charsLead as bs

/-- Test whether `needle` occurs inside `hay` (Python `needle in hay`). -/
def charsContain (needle : List Char) : List Char → Bool
  | [] => charsLead needle []
  | c :: t => charsLead needle (c :: t) || charsContain needle t

/-- Python `needle in hay` on strings. -/
def strContainsB (hay needle : String) : Bool :=
  charsContain needle.data hay.data

/-- Python `str.lower()`, character by character (kept over `List Char` so
that concrete instances evaluate by `decide`). -/
def strToLower (s : String) : String :=
  String.mk (s.data.map Char.toLower)

/-- Python `str.startswith(pre)`. -/
def pyStartsWith (s pre : String) : Bool :=
  charsLead pre.data s.data

/-- Python `"\n".join(parts)` generalized over the separator. -/
def joinWith (sep : String) : List String → String
  | [] => ""
  | [p] => p
  | p :: q :: rest => p ++ sep ++ joinWith sep (q :: rest)

/-- Python `content.split(c)` for a single-character separator, over the
character list (Lean's own `String.splitOn` does not reduce in the kernel,
so concrete instances could not be checked with it). -/
def splitOnChar (c : Char) : List Char → List (List Char)
  | [] => [[]]
  | x :: xs =>
    let r := splitOnChar c xs
    if x == c then [] :: r
    else
      match r with
      | [] => [[x]]
      | h :: t => (x :: h) :: t

/-- Python `content.split(chr(10))`: split into lines. -/
def pySplitLines (s : String) : List String :=
  (splitOnChar (Char.ofNat 10) s.data).map String.mk

/-- Python `str.strip()`: remove leading and trailing whitespace. -/
def pstrip (s : String) : String :=
  String.mk (((s.data.dropWhile Char.isWhitespace).reverse.dropWhile
    Char.isWhitespace).reverse)

/-- The single-quote character as a string (used in the unknown-agent
error message of `Orchestrator.run`). -/
def sq : String := String.singleton (Char.ofNat 39)

/-- `hay` contains `sub` as a contiguous substring. -/
def strContains (hay sub : String) : Prop :=
  ∃ x y, hay = x ++ sub ++ y

/-! ## Retry policy — `AgentRunner._invoke_with_retry` (orchestrator.py 89-133)

The provider stub is a function from the attempt index to that attempt's
outcome: `Except.ok` is a normal return of `self.llm_with_tools.invoke`,
`Except.error e` is a raised exception whose `str(e)` is `e`.  The result
records the list of `time.sleep` durations (in seconds) performed, in order,
together with the final outcome.
-/

/-- orchestrator.py 15: `MAX_RETRIES = 3`. -/
def MAX_RETRIES : Nat := 3

/-- orchestrator.py 16: `INITIAL_WAIT_SECONDS = 60`. -/
def INITIAL_WAIT_SECONDS : Nat := 60

/-- Classification in orchestrator.py 112:
`"429" in error_str or "rate_limit" in error_str.lower()`. -/
def isRateLimitError (e : String) : Bool :=
  strContainsB e "429" || strContainsB (strToLower e) "rate_limit"

/-- Terminal failures of `_invoke_with_retry`: `exhausted` is the
`Exception("Rate limit: Max retries (...) überschritten. ...")` raised after
the retry budget is spent; `fatal` re-raises the provider's own exception
unchanged (the non-rate-limit branch, and the unreachable trailing raise). -/
inductive RetryError where
  | exhausted (maxRetries : Nat) (lastError : String)
  | fatal (err : String)
deriving DecidableEq, Repr

/-- The `for attempt in range(max_retries + 1)` loop of
`_invoke_with_retry`.  `remaining` is the number of loop iterations left
(`max_retries + 1 - attempt`); the `remaining = 0` case is the
`raise Exception("Max retries exceeded")` after the loop. -/
def retryLoop (stub : Nat → Except String α) (maxRetries : Nat) :
    Nat → Nat → Nat → List Nat × Except RetryError α
  | 0, _, _ => ([], Except.error (RetryError.fatal "Max retries exceeded"))
  | remaining + 1, attempt, waitTime =>
    match stub attempt with
    | Except.ok v => ([], Except.ok v)
    | Except.error e =>
      if isRateLimitError e then
        if attempt < maxRetries then
          let next := retryLoop stub maxRetries remaining (attempt + 1)
            (min (waitTime * 2) 300)
          (waitTime :: next.1, next.2)
        else ([], Except.error (RetryError.exhausted maxRetries e))
      else ([], Except.error (RetryError.fatal e))

/-- `AgentRunner._invoke_with_retry` (orchestrator.py 89-133): start with
`wait_time = INITIAL_WAIT_SECONDS`, run up to `maxRetries + 1` attempts. -/
def invoke_with_retry (stub : Nat → Except String α)
    (maxRetries : Nat := MAX_RETRIES) : List Nat × Except RetryError α :=
  retryLoop stub maxRetries (maxRetries + 1) 0 INITIAL_WAIT_SECONDS

/-! ## Messages, tools, and the conversation loop — `AgentRunner.run`
(orchestrator.py 135-199)

A provider response is normalized to its text content plus an ordered list of
tool invocations (`response.content`, `response.tool_calls`).  Tool-call
arguments are an opaque key/value mapping; the loop never inspects them, it
only forwards them to the capability.  The provider handle `llm` maps the
current message history to either a response (`Except.ok`) or a raised
terminal failure of `_invoke_with_retry` (`Except.error`).
-/

/-- One entry of `response.tool_calls`:
`{"name": ..., "args": ..., "id": ...}`. -/
structure ToolInvocation where
  name : String
  args : List (String × String)
  id : String
deriving DecidableEq, Repr

/-- A provider response: text content plus tool invocations. -/
structure Response where
  content : String
  tool_calls : List ToolInvocation
deriving DecidableEq, Repr

/-- A conversation message: `SystemMessage`, `HumanMessage`, the assistant
`response` appended by the loop, or a `ToolMessage(content, tool_call_id)`. -/
inductive Message where
  | system (content : String)
  | human (content : String)
  | ai (response : Response)
  | tool (content : String) (tool_call_id : String)
deriving DecidableEq, Repr

/-- A bound tool capability: a name and an invocable body returning text
(`Except.ok`) or raising (`Except.error e`, with `str(e) = e`). -/
structure Tool where
  name : String
  invoke : List (String × String) → Except String String

/-- orchestrator.py 148: `tools_by_name = {t.name: t for t in self.tools}`,
then dictionary lookup.  Later entries overwrite earlier ones, as in a
Python dict comprehension. -/
def toolsByName (tools : List Tool) (name : String) : Option Tool :=
  tools.foldl (fun acc t => if t.name == name then some t else acc) none

/-- The per-invocation dispatch of orchestrator.py 178-184: run the named
tool, turning an invocation failure or an unknown name into result text. -/
def dispatchTool (tools : List Tool) (tc : ToolInvocation) : String :=
  match toolsByName tools tc.name with
  | some t =>
    match t.invoke tc.args with
    | Except.ok result => result
    | Except.error e => "Error executing tool " ++ tc.name ++ ": " ++ e
  | none => "Unknown tool: " ++ tc.name

/-- orchestrator.py 171-192: one `ToolMessage` per invocation, in invocation
order, each carrying the invocation's `id` as `tool_call_id`. -/
def toolResults (tools : List Tool) (tcs : List ToolInvocation) : List Message :=
  tcs.map (fun tc => Message.tool (dispatchTool tools tc) tc.id)

/-- The observable outcome of one `AgentRunner.run` call: the final message
history, the number of provider calls made, and the returned answer text. -/
structure RunResult where
  messages : List Message
  calls : Nat
  answer : String
deriving DecidableEq, Repr

/-- The `for iteration in range(max_iterations)` loop of `AgentRunner.run`
(orchestrator.py 152-199).  `fuel` is the number of iterations left; the
`fuel = 0` case is the fall-through `return response.content` after the loop,
with `last` the content of the previous iteration's response. -/
def agentLoop (llm : List Message → Except String Response) (tools : List Tool) :
    Nat → List Message → Nat → String → Except String RunResult
  | 0, msgs, calls, last => Except.ok ⟨msgs, calls, last⟩
  | fuel + 1, msgs, calls, _ =>
    match llm msgs with
    | Except.error e => Except.error e
    | Except.ok r =>
      let msgs2 := msgs ++ [Message.ai r]
      if r.tool_calls.isEmpty then Except.ok ⟨msgs2, calls + 1, r.content⟩
      else agentLoop llm tools fuel (msgs2 ++ toolResults tools r.tool_calls)
        (calls + 1) r.content

/-- `AgentRunner.run` (orchestrator.py 135-199): seed the history with the
system prompt and the user query, then loop with `max_iterations = 10`. -/
def AgentRunner.run (llm : List Message → Except String Response)
    (tools : List Tool) (systemPrompt query : String) :
    Except String RunResult :=
  agentLoop llm tools 10 [Message.system systemPrompt, Message.human query] 0 ""

/-- Content of the last assistant message of a history, if any. -/
def lastAIContent (msgs : List Message) : Option String :=
  msgs.foldl
    (fun acc m => match m with | Message.ai r => some r.content | _ => acc)
    none

/-! ## Delegation supervisor — `Orchestrator.run` (orchestrator.py 246-294)

The registry models `self.agent_runners`: a key (the registered agent name),
the runner's display name (`runner.config.name`), and the runner's `run`
method, which either returns the delegate's answer or raises
(`Except.error`).  In the source each registered runner's `run` is
`AgentRunner.run` of that delegate's conversation loop; the registry keeps it
as a function so that theorems can quantify over the delegate's behaviour and
instantiate it with the embedded loop.  The supervisor's own provider call
(`self.supervisor_with_tools.invoke`, line 261) has no retry wrapper and is
modelled as a total function, i.e. runs in which the supervisor's own
provider succeeds.
-/

/-- One entry of `self.agent_runners`. -/
structure DelegateEntry where
  key : String
  displayName : String
  run : String → Except String String

/-- Python `tool_call["args"].get(k, d)` for string-valued arguments. -/
def argsGet (args : List (String × String)) (k d : String) : String :=
  match args.find? (fun p => p.1 == k) with
  | some p => p.2
  | none => d

/-- Dictionary lookup `self.agent_runners[agent_name]` (membership test at
orchestrator.py 270); registry keys are unique, so first match is the
dictionary's entry. -/
def findRunner (registry : List DelegateEntry) (name : String) :
    Option DelegateEntry :=
  registry.find? (fun e => e.key == name)

/-- The `for tool_call in response.tool_calls` body of `Orchestrator.run`
(orchestrator.py 266-288): resolve the named delegate; if registered, call
its `run` — a raised delegate failure propagates (there is no handler) — and
append the tagged `ToolMessage`, also recording the pair in
`agent_responses`; if unregistered, append the unknown-agent error message.
-/
def dispatchDelegations (registry : List DelegateEntry) :
    List ToolInvocation → List Message → List (String × String) →
    Except String (List Message × List (String × String))
  | [], msgs, resp => Except.ok (msgs, resp)
  | tc :: rest, msgs, resp =>
    let agentName := argsGet tc.args "agent_name" ""
    let task := argsGet tc.args "task" ""
    match findRunner registry agentName with
    | some e =>
      match e.run task with
      | Except.ok result =>
        dispatchDelegations registry rest
          (msgs ++ [Message.tool ("[" ++ e.displayName ++ "]: " ++ result) tc.id])
          (resp ++ [(e.displayName, result)])
      | Except.error err => Except.error err
    | none =>
      dispatchDelegations registry rest
        (msgs ++ [Message.tool ("Error: Unknown agent " ++ sq ++ agentName ++ sq)
          tc.id])
        resp

/-- The `for _ in range(max_iterations)` supervisor loop of
`Orchestrator.run` (orchestrator.py 260-291); `last` is the response of the
previous iteration, returned when the iteration budget is exhausted. -/
def orchLoop (llm : List Message → Response) (registry : List DelegateEntry) :
    Nat → List Message → List (String × String) → Response →
    Except String (List Message × String)
  | 0, msgs, _, last => Except.ok (msgs, last.content)
  | fuel + 1, msgs, resp, _ =>
    let r := llm msgs
    let msgs2 := msgs ++ [Message.ai r]
    if r.tool_calls.isEmpty then Except.ok (msgs2, r.content)
    else
      match dispatchDelegations registry r.tool_calls msgs2 resp with
      | Except.ok (msgs3, resp2) => orchLoop llm registry fuel msgs3 resp2 r
      | Except.error e => Except.error e

/-- `Orchestrator.run` (orchestrator.py 246-294): seed with the supervisor's
system prompt and the query, loop with `max_iterations = 10` and an empty
`agent_responses` list. -/
def Orchestrator.run (llm : List Message → Response)
    (registry : List DelegateEntry) (systemPrompt query : String) :
    Except String (List Message × String) :=
  orchLoop llm registry 10
    [Message.system systemPrompt, Message.human query] [] ⟨"", []⟩

/-! ## Sequential Q&A pipeline — markdown_processor.py

`run_single_agent` (the underlying conversation-loop call) is a parameter
mapping an agent name and a query to the answer text or a raised failure.
The incremental `write_text` side effect of `process_questions` does not
affect the returned answers and is outside the embedded value.
-/

/-- markdown_processor.py 34-41. -/
structure Question where
  number : Nat
  agent : String
  text : String
  line_index : Nat
  original_line : String
deriving DecidableEq, Repr

/-- markdown_processor.py 44-50. -/
structure Answer where
  question_number : Nat
  question_line : String
  question_text : String
  answer_text : String
deriving DecidableEq, Repr

/-- `format_previous_answers` (markdown_processor.py 142-159). -/
def format_previous_answers (answers : List Answer) : String :=
  if answers.isEmpty then ""
  else
    joinWith "\n" ("Bisherige Fragen und Antworten:\n" ::
      answers.map (fun a => "### " ++ a.question_text ++ "\n" ++
        a.answer_text ++ "\n"))

/-- The `full_query` construction of `process_questions`
(markdown_processor.py 202-219): the two f-string templates, chosen by
whether the previous-answers context is empty. -/
def buildFullQuery (context prevCtx qtext : String) : String :=
  if prevCtx = "" then
    "Kontext:\n" ++ context ++ "\n\nFrage:\n" ++ qtext ++
      "\n\nBitte beantworte die Frage basierend auf dem gegebenen Kontext."
  else
    "Kontext:\n" ++ context ++ "\n\n" ++ prevCtx ++ "\n\nAktuelle Frage:\n" ++
      qtext ++
      "\n\nBitte beantworte die Frage basierend auf dem Kontext und den bisherigen Antworten."

/-- The `for q in questions` loop of `process_questions`
(markdown_processor.py 193-256): build the prompt from the context and all
previous answers, call the agent, turn a raised failure into the
placeholder text (line 233), and append the `Answer`. -/
def processQuestionsGo (runAgent : String → String → Except String String)
    (context : String) : List Question → List Answer → List Answer
  | [], answers => answers
  | q :: rest, answers =>
    let prev := format_previous_answers answers
    let fullQuery := buildFullQuery context prev q.text
    let response :=
      match runAgent q.agent fullQuery with
      | Except.ok r => r
      | Except.error e => "Fehler bei der Verarbeitung: " ++ e
    processQuestionsGo runAgent context rest
      (answers ++ [{ question_number := q.number,
                     question_line := q.original_line,
                     question_text := q.text,
                     answer_text := response }])

/-- `process_questions` (markdown_processor.py 162-256). -/
def process_questions (runAgent : String → String → Except String String)
    (context : String) (questions : List Question) : List Answer :=
  processQuestionsGo runAgent context questions []

/-! ## Answer insertion — `write_answers_to_markdown`
(markdown_processor.py 259-324)

The document is processed line by line.  Python's
`QUESTION_PATTERN.match(s)` with pattern `^(\d+)\.\s+(?:@(\w+)\s+)?(.+)$` is
used only for its truth value, and only on `str.strip()`-ed lines; on a
stripped single-line string it succeeds iff the string is one or more digits,
a period, then a whitespace character followed by at least one more
character (the optional `@agent` group never changes whether the whole
pattern matches).  ASCII digit/whitespace classes stand in for Python's
Unicode classes.
-/

/-- Truth value of `QUESTION_PATTERN.match` on a stripped line. -/
def questionPatternMatch (s : String) : Bool :=
  let ds := s.data.takeWhile Char.isDigit
  match s.data.dropWhile Char.isDigit with
  | '.' :: c :: _ :: _ => !ds.isEmpty && c.isWhitespace
  | _ => false

/-- markdown_processor.py 274:
`answer_map = {a.question_line.strip(): a for a in answers}` followed by
lookup — for duplicate keys the later list entry overwrites the earlier. -/
def answerMapLookup (answers : List Answer) (key : String) : Option Answer :=
  answers.foldl
    (fun acc a => if pstrip a.question_line == key then some a else acc) none

/-- The innermost `while` of `write_answers_to_markdown`
(markdown_processor.py 301-304): consume blank or `"   "`-indented lines,
stopping early at a line whose stripped text matches the question pattern.
Operates on the suffix of the document starting at the loop's index and
returns the suffix where the enclosing loop resumes. -/
def skipIndented : List String → List String
  | [] => []
  | l :: rest =>
    if (pstrip l == "") || pyStartsWith l "   " then
      if (pstrip l != "") && questionPatternMatch (pstrip l) then l :: rest
      else skipIndented rest
    else l :: rest

theorem skipIndented_length_le (ls : List String) :
    (skipIndented ls).length ≤ ls.length := by
  induction ls with
  | nil => simp [skipIndented]
  | cons l rest ih =>
    simp only [skipIndented]
    split
    · split
      · exact Nat.le_refl _
      · exact Nat.le_succ_of_le ih
    · exact Nat.le_refl _

/-- The middle `while j < len(lines)` of `write_answers_to_markdown`
(markdown_processor.py 291-310): consume blank lines and stale answer blocks
(`"**Antwort:**"`/`"###"` headers with their indented content), stopping at
a question-pattern line or any other non-blank content.  Returns the suffix
where the outer loop resumes. -/
def skipOldAnswersGo : Nat → List String → List String
  | 0, ls => ls
  | _ + 1, [] => []
  | fuel + 1, l :: rest =>
    if (pstrip l != "") && questionPatternMatch (pstrip l) then l :: rest
    else if pyStartsWith (pstrip l) "**Antwort:**" ||
        pyStartsWith (pstrip l) "###" then
      skipOldAnswersGo fuel (skipIndented rest)
    else if pstrip l == "" then skipOldAnswersGo fuel rest
    else l :: rest

/-- The middle loop, started with enough fuel for its worst case (the loop
advances its index at every step, so `ls.length` steps suffice). -/
def skipOldAnswers (ls : List String) : List String :=
  skipOldAnswersGo ls.length ls

theorem skipOldAnswersGo_length_le :
    ∀ fuel (ls : List String), (skipOldAnswersGo fuel ls).length ≤ ls.length := by
  intro fuel
  induction fuel with
  | zero => intro ls; exact Nat.le_refl _
  | succ n ih =>
    intro ls
    cases ls with
    | nil => exact Nat.le_refl _
    | cons l rest =>
      simp only [skipOldAnswersGo]
      split
      · exact Nat.le_refl _
      · split
        · calc (skipOldAnswersGo n (skipIndented rest)).length
              ≤ (skipIndented rest).length := ih (skipIndented rest)
            _ ≤ rest.length := skipIndented_length_le rest
            _ ≤ (l :: rest).length := Nat.le_succ_of_le (Nat.le_refl _)
        · split
          · exact Nat.le_succ_of_le (ih rest)
          · exact Nat.le_refl _

theorem skipOldAnswers_length_le (ls : List String) :
    (skipOldAnswers ls).length ≤ ls.length :=
  skipOldAnswersGo_length_le ls.length ls

/-- The outer `while i < len(lines)` of `write_answers_to_markdown`
(markdown_processor.py 279-322): a line whose stripped text is a key of the
answer map is replaced by a `### <question text>` header, a blank line, the
answer text and a blank line, and the stale-answer region after it is
skipped; any other line is kept. -/
def writeLoopGo (lookup : String → Option Answer) :
    Nat → List String → List String
  | 0, _ => []
  | _ + 1, [] => []
  | fuel + 1, line :: rest =>
    match lookup (pstrip line) with
    | some a =>
      ("### " ++ a.question_text) :: "" :: a.answer_text :: "" ::
        writeLoopGo lookup fuel (skipOldAnswers rest)
    | none => line :: writeLoopGo lookup fuel rest

/-- The outer loop, started with enough fuel for its worst case (the loop
advances its index at every step, so `ls.length` steps suffice). -/
def writeLoop (lookup : String → Option Answer) (ls : List String) :
    List String :=
  writeLoopGo lookup ls.length ls

/-- `write_answers_to_markdown` (markdown_processor.py 259-324). -/
def write_answers_to_markdown (original_content : String)
    (answers : List Answer) : String :=
  joinWith "\n" (writeLoop (answerMapLookup answers)
    (pySplitLines original_content))

/-! ## Lemmas about the retry policy -/

theorem retryLoop_step_ok {α : Type} (stub : Nat → Except String α)
    (mr rem attempt w : Nat) (v : α) (hok : stub attempt = Except.ok v) :
    retryLoop stub mr (rem + 1) attempt w = ([], Except.ok v) := by
  simp only [retryLoop, hok]

theorem retryLoop_step_rate {α : Type} (stub : Nat → Except String α)
    (mr rem attempt w : Nat) (e : String)
    (he : stub attempt = Except.error e) (hr : isRateLimitError e = true)
    (hlt : attempt < mr) :
    retryLoop stub mr (rem + 1) attempt w =
      (w :: (retryLoop stub mr rem (attempt + 1) (min (w * 2) 300)).1,
       (retryLoop stub mr rem (attempt + 1) (min (w * 2) 300)).2) := by
  simp only [retryLoop, he, hr, if_true, hlt]

theorem retryLoop_step_exhaust {α : Type} (stub : Nat → Except String α)
    (mr rem attempt w : Nat) (e : String)
    (he : stub attempt = Except.error e) (hr : isRateLimitError e = true)
    (hge : ¬ attempt < mr) :
    retryLoop stub mr (rem + 1) attempt w =
      ([], Except.error (RetryError.exhausted mr e)) := by
  simp only [retryLoop, he, hr, if_true, hge, if_false]

theorem retryLoop_step_fatal {α : Type} (stub : Nat → Except String α)
    (mr rem attempt w : Nat) (e : String)
    (he : stub attempt = Except.error e) (hr : isRateLimitError e = false) :
    retryLoop stub mr (rem + 1) attempt w =
      ([], Except.error (RetryError.fatal e)) := by
  simp only [retryLoop, he, hr, Bool.false_eq_true, if_false]

theorem retryLoop_sleeps_chain {α : Type} (stub : Nat → Except String α)
    (mr : Nat) : ∀ rem attempt w,
    (retryLoop stub mr rem attempt w).1 = [] ∨
    ((retryLoop stub mr rem attempt w).1.head? = some w ∧
      List.Chain' (fun a b => b = min (a * 2) 300)
        (retryLoop stub mr rem attempt w).1) := by
  intro rem
  induction rem with
  | zero => intro attempt w; left; rfl
  | succ rem ih =>
    intro attempt w
    cases hs : stub attempt with
    | ok v => left; rw [retryLoop_step_ok stub mr rem attempt w v hs]
    | error e =>
      cases hr : isRateLimitError e with
      | false => left; rw [retryLoop_step_fatal stub mr rem attempt w e hs hr]
      | true =>
        by_cases hlt : attempt < mr
        · right
          rw [retryLoop_step_rate stub mr rem attempt w e hs hr hlt]
          refine ⟨rfl, ?_⟩
          rcases ih (attempt + 1) (min (w * 2) 300) with hnil | ⟨hhd, hch⟩
          · simp [hnil]
          · rw [List.chain'_cons']
            refine ⟨?_, hch⟩
            intro y hy
            rw [hhd] at hy
            simpa using hy.symm
        · left
          rw [retryLoop_step_exhaust stub mr rem attempt w e hs hr hlt]

/-- C2: for every provider stub, `invoke_with_retry` with max-retries = 3
behaves as follows: if the stub fails with a rate-limit signal twice then
succeeds, it returns the stub's success payload after exactly 2 sleeps of 60
and 120 seconds; if the stub always fails with a rate-limit signal, it
performs exactly 3 sleeps of 60, 120 and 240 seconds and then raises the
terminal retries-exhausted error; and for every stub each sleep duration is
the previous one doubled, capped at 300 seconds, starting from 60. -/
theorem C2_retry_backoff {α : Type} (e1 e2 : String) (v : α)
    (stubA stubB : Nat → Except String α) (eB : Nat → String)
    (h1 : isRateLimitError e1 = true) (h2 : isRateLimitError e2 = true)
    (hA0 : stubA 0 = Except.error e1) (hA1 : stubA 1 = Except.error e2)
    (hA2 : stubA 2 = Except.ok v)
    (hB : ∀ n, stubB n = Except.error (eB n))
    (hBr : ∀ n, isRateLimitError (eB n) = true) :
    invoke_with_retry stubA 3 = ([60, 120], Except.ok v) ∧
    invoke_with_retry stubB 3 =
      ([60, 120, 240], Except.error (RetryError.exhausted 3 (eB 3))) ∧
    (∀ stub : Nat → Except String α,
      (invoke_with_retry stub 3).1 = [] ∨
      ((invoke_with_retry stub 3).1.head? = some INITIAL_WAIT_SECONDS ∧
        List.Chain' (fun a b => b = min (a * 2) 300)
          (invoke_with_retry stub 3).1)) := by
  have m1 : min (60 * 2) 300 = 120 := by norm_num
  have m2 : min (120 * 2) 300 = 240 := by norm_num
  have m3 : min (240 * 2) 300 = 300 := by norm_num
  refine ⟨?_, ?_, ?_⟩
  · have s1 : retryLoop stubA 3 4 0 60 =
        (60 :: (retryLoop stubA 3 3 1 120).1, (retryLoop stubA 3 3 1 120).2) := by
      rw [show (4 : Nat) = 3 + 1 from rfl,
        retryLoop_step_rate stubA 3 3 0 60 e1 hA0 h1 (by norm_num), m1]
    have s2 : retryLoop stubA 3 3 1 120 =
        (120 :: (retryLoop stubA 3 2 2 240).1, (retryLoop stubA 3 2 2 240).2) := by
      rw [show (3 : Nat) = 2 + 1 from rfl,
        retryLoop_step_rate stubA 3 2 1 120 e2 hA1 h2 (by norm_num), m2]
    have s3 : retryLoop stubA 3 2 2 240 = ([], Except.ok v) := by
      rw [show (2 : Nat) = 1 + 1 from rfl,
        retryLoop_step_ok stubA 3 1 2 240 v hA2]
    show retryLoop stubA 3 4 0 60 = ([60, 120], Except.ok v)
    rw [s1, s2, s3]
  · have s1 : retryLoop stubB 3 4 0 60 =
        (60 :: (retryLoop stubB 3 3 1 120).1, (retryLoop stubB 3 3 1 120).2) := by
      rw [show (4 : Nat) = 3 + 1 from rfl,
        retryLoop_step_rate stubB 3 3 0 60 (eB 0) (hB 0) (hBr 0) (by norm_num), m1]
    have s2 : retryLoop stubB 3 3 1 120 =
        (120 :: (retryLoop stubB 3 2 2 240).1, (retryLoop stubB 3 2 2 240).2) := by
      rw [show (3 : Nat) = 2 + 1 from rfl,
        retryLoop_step_rate stubB 3 2 1 120 (eB 1) (hB 1) (hBr 1) (by norm_num), m2]
    have s3 : retryLoop stubB 3 2 2 240 =
        (240 :: (retryLoop stubB 3 1 3 300).1, (retryLoop stubB 3 1 3 300).2) := by
      rw [show (2 : Nat) = 1 + 1 from rfl,
        retryLoop_step_rate stubB 3 1 2 240 (eB 2) (hB 2) (hBr 2) (by norm_num), m3]
    have s4 : retryLoop stubB 3 1 3 300 =
        ([], Except.error (RetryError.exhausted 3 (eB 3))) := by
      rw [show (1 : Nat) = 0 + 1 from rfl,
        retryLoop_step_exhaust stubB 3 0 3 300 (eB 3) (hB 3) (hBr 3) (by norm_num)]
    show retryLoop stubB 3 4 0 60 =
      ([60, 120, 240], Except.error (RetryError.exhausted 3 (eB 3)))
    rw [s1, s2, s3, s4]
  · intro stub
    exact retryLoop_sleeps_chain stub 3 4 0 INITIAL_WAIT_SECONDS

/-- Concrete stub for the C2 witness: two rate-limit failures, then
success. -/
def wStubA : Nat → Except String String :=
  fun n => if n = 0 then Except.error "429 a"
    else if n = 1 then Except.error "429 b" else Except.ok "PAYLOAD"

/-- Concrete stub for the C2 witness: always a rate-limit failure. -/
def wStubB : Nat → Except String String :=
  fun _ => Except.error "rate_limit hit"

theorem C2_retry_backoff_witness :
    invoke_with_retry wStubA 3 = ([60, 120], Except.ok "PAYLOAD") ∧
    invoke_with_retry wStubB 3 =
      ([60, 120, 240],
        Except.error (RetryError.exhausted 3 "rate_limit hit")) := by
  obtain ⟨hA, hB, _⟩ := C2_retry_backoff "429 a" "429 b" "PAYLOAD"
    wStubA wStubB (fun _ => "rate_limit hit")
    (by decide) (by decide) rfl rfl rfl (fun n => rfl)
    (fun n => by show isRateLimitError "rate_limit hit" = true; decide)
  exact ⟨hA, hB⟩

/-- C4: a provider failure is retried iff it signals a rate-limit condition
(a `429` marker or a `rate_limit` marker in the error text); any other
failure propagates unchanged with zero sleeps and no further attempts (the
result is fully determined by the first attempt alone). -/
theorem C4_retry_classification {α : Type} (stub : Nat → Except String α)
    (mr : Nat) (e : String) (h0 : stub 0 = Except.error e) :
    (isRateLimitError e = false →
      invoke_with_retry stub mr = ([], Except.error (RetryError.fatal e))) ∧
    (isRateLimitError e = true → 0 < mr →
      ∃ t, (invoke_with_retry stub mr).1 = INITIAL_WAIT_SECONDS :: t) := by
  constructor
  · intro hf
    show retryLoop stub mr (mr + 1) 0 60 = ([], Except.error (RetryError.fatal e))
    rw [retryLoop_step_fatal stub mr mr 0 60 e h0 hf]
  · intro hrt hlt
    show ∃ t, (retryLoop stub mr (mr + 1) 0 60).1 = 60 :: t
    rw [retryLoop_step_rate stub mr mr 0 60 e h0 hrt hlt]
    exact ⟨_, rfl⟩

/-- Concrete stub for the C4 witness: a non-rate-limit failure. -/
def wStubC : Nat → Except String String :=
  fun _ => Except.error "connection refused"

theorem C4_retry_classification_witness :
    invoke_with_retry wStubC 3 =
      ([], Except.error (RetryError.fatal "connection refused")) ∧
    (∃ t, (invoke_with_retry wStubB 3).1 = INITIAL_WAIT_SECONDS :: t) := by
  constructor
  · exact (C4_retry_classification wStubC 3 "connection refused" rfl).1 (by decide)
  · exact (C4_retry_classification wStubB 3 "rate_limit hit" rfl).2 (by decide)
      (by norm_num)

/-! ## Lemmas about the conversation loop -/

theorem lastAIContent_append_ai (msgs : List Message) (r : Response) :
    lastAIContent (msgs ++ [Message.ai r]) = some r.content := by
  simp [lastAIContent, List.foldl_append]

theorem lastAIContent_append_tools (msgs : List Message) (tools : List Tool)
    (tcs : List ToolInvocation) :
    lastAIContent (msgs ++ toolResults tools tcs) = lastAIContent msgs := by
  induction tcs generalizing msgs with
  | nil => simp [toolResults]
  | cons tc rest ih =>
    have : msgs ++ toolResults tools (tc :: rest) =
        (msgs ++ [Message.tool (dispatchTool tools tc) tc.id]) ++
          toolResults tools rest := by
      simp [toolResults]
    rw [this, ih]
    simp [lastAIContent, List.foldl_append]

theorem agentLoop_ok_calls_le
    (llm : List Message → Except String Response) (tools : List Tool)
    (hok : ∀ msgs, ∃ r, llm msgs = Except.ok r) :
    ∀ fuel msgs calls last, ∃ res,
      agentLoop llm tools fuel msgs calls last = Except.ok res ∧
      res.calls ≤ calls + fuel := by
  intro fuel
  induction fuel with
  | zero =>
    intro msgs calls last
    exact ⟨⟨msgs, calls, last⟩, rfl, by dsimp only; omega⟩
  | succ n ih =>
    intro msgs calls last
    obtain ⟨r, hr⟩ := hok msgs
    cases hc : r.tool_calls.isEmpty with
    | true =>
      refine ⟨⟨msgs ++ [Message.ai r], calls + 1, r.content⟩, ?_,
        by dsimp only; omega⟩
      simp only [agentLoop, hr, hc, if_true]
    | false =>
      obtain ⟨res, hres, hle⟩ := ih
        (msgs ++ [Message.ai r] ++ toolResults tools r.tool_calls)
        (calls + 1) r.content
      refine ⟨res, ?_, by omega⟩
      simp only [agentLoop, hr, hc, Bool.false_eq_true, if_false]
      exact hres

theorem agentLoop_all_tool_calls
    (llm : List Message → Except String Response) (tools : List Tool)
    (hok : ∀ msgs, ∃ r, llm msgs = Except.ok r)
    (htc : ∀ msgs r, llm msgs = Except.ok r → r.tool_calls ≠ []) :
    ∀ fuel msgs calls last, lastAIContent msgs = some last →
      ∃ res, agentLoop llm tools fuel msgs calls last = Except.ok res ∧
        res.calls = calls + fuel ∧
        some res.answer = lastAIContent res.messages := by
  intro fuel
  induction fuel with
  | zero =>
    intro msgs calls last hinv
    exact ⟨⟨msgs, calls, last⟩, rfl, by dsimp only; omega, hinv.symm⟩
  | succ n ih =>
    intro msgs calls last hinv
    obtain ⟨r, hr⟩ := hok msgs
    have hne := htc msgs r hr
    have hie : r.tool_calls.isEmpty = false := by
      cases hc : r.tool_calls with
      | nil => exact absurd hc hne
      | cons a l => rfl
    have hinv2 : lastAIContent
        (msgs ++ [Message.ai r] ++ toolResults tools r.tool_calls) =
        some r.content := by
      rw [lastAIContent_append_tools (msgs ++ [Message.ai r]) tools
        r.tool_calls, lastAIContent_append_ai]
    obtain ⟨res, hres, hcalls, hans⟩ := ih
      (msgs ++ [Message.ai r] ++ toolResults tools r.tool_calls)
      (calls + 1) r.content hinv2
    refine ⟨res, ?_, by omega, hans⟩
    simp only [agentLoop, hr, hie, Bool.false_eq_true, if_false]
    exact hres

/-- C8: for an agent with an empty bound tool set, the conversation loop
terminates in exactly one iteration: one provider request, one appended
assistant message, and its content returned.  The hypothesis that the
response carries no tool invocations is the provider contract for a call
with no bound tool schema (spec section 6). -/
theorem C8_no_tools_single_iteration
    (llm : List Message → Except String Response) (sp q : String)
    (r : Response)
    (hr : llm [Message.system sp, Message.human q] = Except.ok r)
    (hnc : r.tool_calls = []) :
    AgentRunner.run llm [] sp q =
      Except.ok ⟨[Message.system sp, Message.human q, Message.ai r],
        1, r.content⟩ := by
  show agentLoop llm [] 10 [Message.system sp, Message.human q] 0 "" = _
  rw [show (10 : Nat) = 9 + 1 from rfl]
  simp only [agentLoop, hr, hnc, List.isEmpty_nil, if_true]
  rfl

/-- Concrete provider for the C8 witness: always answers plain text. -/
def wLlm8 : List Message → Except String Response :=
  fun _ => Except.ok ⟨"done", []⟩

theorem C8_no_tools_single_iteration_witness :
    AgentRunner.run wLlm8 [] "s" "u" =
      Except.ok ⟨[Message.system "s", Message.human "u",
        Message.ai ⟨"done", []⟩], 1, "done"⟩ :=
  C8_no_tools_single_iteration wLlm8 "s" "u" ⟨"done", []⟩ rfl rfl

/-- C3: in a run of the conversation loop in which every provider call
succeeds, the loop makes at most 10 provider calls; and if every assistant
response carries tool invocations, it makes exactly 10 calls and returns
the content of the last assistant message, without raising. -/
theorem C3_iteration_ceiling
    (llm : List Message → Except String Response) (tools : List Tool)
    (sp q : String)
    (hok : ∀ msgs, ∃ r, llm msgs = Except.ok r) :
    ∃ res, AgentRunner.run llm tools sp q = Except.ok res ∧
      res.calls ≤ 10 ∧
      ((∀ msgs r, llm msgs = Except.ok r → r.tool_calls ≠ []) →
        res.calls = 10 ∧ some res.answer = lastAIContent res.messages) := by
  obtain ⟨res, hres, hle⟩ := agentLoop_ok_calls_le llm tools hok 10
    [Message.system sp, Message.human q] 0 ""
  refine ⟨res, hres, by omega, ?_⟩
  intro htc
  obtain ⟨r0, hr0⟩ := hok [Message.system sp, Message.human q]
  have hne := htc _ _ hr0
  have hie : r0.tool_calls.isEmpty = false := by
    cases hc : r0.tool_calls with
    | nil => exact absurd hc hne
    | cons a l => rfl
  have hstep : AgentRunner.run llm tools sp q =
      agentLoop llm tools 9
        ([Message.system sp, Message.human q] ++ [Message.ai r0] ++
          toolResults tools r0.tool_calls) 1 r0.content := by
    show agentLoop llm tools (9 + 1) [Message.system sp, Message.human q]
      0 "" = _
    simp only [agentLoop, hr0, hie, Bool.false_eq_true, if_false]
  have hinv : lastAIContent
      ([Message.system sp, Message.human q] ++ [Message.ai r0] ++
        toolResults tools r0.tool_calls) = some r0.content := by
    rw [lastAIContent_append_tools, lastAIContent_append_ai]
  obtain ⟨res2, hres2, hcalls2, hans2⟩ :=
    agentLoop_all_tool_calls llm tools hok htc 9 _ 1 r0.content hinv
  have : res = res2 := by
    have := hres.symm.trans (hstep.trans hres2)
    exact Except.ok.inj this
  subst this
  exact ⟨by omega, hans2⟩

/-- Concrete provider for the C3 witness: always demands a tool call. -/
def wLlm3 : List Message → Except String Response :=
  fun _ => Except.ok ⟨"more", [⟨"t", [], "i"⟩]⟩

theorem C3_iteration_ceiling_witness :
    ∃ res, AgentRunner.run wLlm3 [] "s" "u" = Except.ok res ∧
      res.calls ≤ 10 ∧
      (res.calls = 10 ∧ some res.answer = lastAIContent res.messages) := by
  obtain ⟨res, hres, hle, hall⟩ := C3_iteration_ceiling wLlm3 [] "s" "u"
    (fun msgs => ⟨⟨"more", [⟨"t", [], "i"⟩]⟩, rfl⟩)
  exact ⟨res, hres, hle, hall (fun msgs r hr => by
    cases hr
    decide)⟩

/-- C5: in every conversation-loop iteration whose assistant message carries
tool invocations, the loop continues with exactly one tool-result message
appended per invocation, in invocation order, each carrying the matching
`tool_call_id`; the result text is the capability's output on success, the
captured error text on invocation failure, and an unknown-tool message when
the name is not bound — and dispatch is total, so a tool failure never
propagates out of the loop. -/
theorem C5_tool_dispatch
    (llm : List Message → Except String Response) (tools : List Tool)
    (fuel : Nat) (msgs : List Message) (calls : Nat) (last : String)
    (r : Response) (hr : llm msgs = Except.ok r) (hne : r.tool_calls ≠ []) :
    agentLoop llm tools (fuel + 1) msgs calls last =
      agentLoop llm tools fuel
        (msgs ++ [Message.ai r] ++ toolResults tools r.tool_calls)
        (calls + 1) r.content ∧
    (toolResults tools r.tool_calls).length = r.tool_calls.length ∧
    (∀ (i : Nat) (tc : ToolInvocation), r.tool_calls[i]? = some tc →
      (toolResults tools r.tool_calls)[i]? =
        some (Message.tool (dispatchTool tools tc) tc.id)) ∧
    (∀ tc : ToolInvocation,
      (∀ t out, toolsByName tools tc.name = some t →
        t.invoke tc.args = Except.ok out → dispatchTool tools tc = out) ∧
      (∀ t err, toolsByName tools tc.name = some t →
        t.invoke tc.args = Except.error err →
        dispatchTool tools tc =
          "Error executing tool " ++ tc.name ++ ": " ++ err) ∧
      (toolsByName tools tc.name = none →
        dispatchTool tools tc = "Unknown tool: " ++ tc.name)) := by
  have hie : r.tool_calls.isEmpty = false := by
    cases hc : r.tool_calls with
    | nil => exact absurd hc hne
    | cons a l => rfl
  refine ⟨?_, ?_, ?_, ?_⟩
  · simp only [agentLoop, hr, hie, Bool.false_eq_true, if_false]
  · simp [toolResults]
  · intro i tc htc
    simp [toolResults, List.getElem?_map, htc]
  · intro tc
    refine ⟨?_, ?_, ?_⟩
    · intro t out hfind hinv
      simp [dispatchTool, hfind, hinv]
    · intro t err hfind hinv
      simp [dispatchTool, hfind, hinv]
    · intro hfind
      simp [dispatchTool, hfind]

/-- Concrete tools for the C5 witness: one succeeding, one failing. -/
def wTools5 : List Tool :=
  [⟨"echo", fun _ => Except.ok "out1"⟩,
   ⟨"boom", fun _ => Except.error "bad"⟩]

/-- Concrete response for the C5 witness: three invocations — a succeeding
tool, a failing tool, and an unknown name. -/
def wResp5 : Response :=
  ⟨"c", [⟨"echo", [], "id1"⟩, ⟨"boom", [], "id2"⟩, ⟨"nope", [], "id3"⟩]⟩

/-- Concrete provider for the C5 witness. -/
def wLlm5 : List Message → Except String Response :=
  fun _ => Except.ok wResp5

theorem C5_tool_dispatch_witness :
    agentLoop wLlm5 wTools5 1 [] 0 "" =
      agentLoop wLlm5 wTools5 0
        ([] ++ [Message.ai wResp5] ++ toolResults wTools5 wResp5.tool_calls)
        1 wResp5.content ∧
    (toolResults wTools5 wResp5.tool_calls).length = 3 ∧
    (toolResults wTools5 wResp5.tool_calls)[0]? =
      some (Message.tool "out1" "id1") ∧
    (toolResults wTools5 wResp5.tool_calls)[1]? =
      some (Message.tool "Error executing tool boom: bad" "id2") ∧
    (toolResults wTools5 wResp5.tool_calls)[2]? =
      some (Message.tool "Unknown tool: nope" "id3") := by
  obtain ⟨h1, h2, h3, _⟩ := C5_tool_dispatch wLlm5 wTools5 0 [] 0 ""
    wResp5 rfl (by decide)
  refine ⟨h1, h2, ?_, ?_, ?_⟩
  · rw [h3 0 ⟨"echo", [], "id1"⟩ rfl]; rfl
  · rw [h3 1 ⟨"boom", [], "id2"⟩ rfl]; rfl
  · rw [h3 2 ⟨"nope", [], "id3"⟩ rfl]; rfl

/-! ## The supervisor and delegate failures (C1, C6) -/

/-- Concrete supervisor provider for the C1 counterexample: the first call
(on the 2-message seed history) emits one delegation to the registered agent
`architekt`; any later call is terminal plain text. -/
def cLlm1 : List Message → Response :=
  fun msgs =>
    if msgs.length == 2 then
      ⟨"", [⟨"delegate_to_agent",
        [("agent_name", "architekt"), ("task", "t")], "id1"⟩]⟩
    else ⟨"done", []⟩

/-- Concrete registry for the C1 counterexample: the registered delegate's
conversation loop raises an internal failure. -/
def cReg1 : List DelegateEntry :=
  [⟨"architekt", "Solution Architekt", fun _ => Except.error "boom"⟩]

/-- C1 counterexample: a supervisor run in which a delegate invocation names
the registered agent `architekt` and that delegate's loop raises `"boom"`.
Contrary to the claim, the supervisor does not catch the failure and append
an error-text tool result — `Orchestrator.run` itself raises (the dispatch
at orchestrator.py 270-281 has no handler around `runner.run(task)`). -/
theorem C1_counterexample :
    Orchestrator.run cLlm1 cReg1 "sys" "task" = Except.error "boom" := by
  rfl

/-- C1 (amended): if a supervisor delegate invocation names a registered
agent whose conversation loop raises an internal failure, then the failure
propagates out of the supervisor run unchanged — `Orchestrator.run` raises
it and appends no error-text tool result for that invocation. -/
theorem C1_amended_delegate_failure_propagates
    (llm : List Message → Response) (registry : List DelegateEntry)
    (sp q : String) (r : Response) (tc : ToolInvocation)
    (rest : List ToolInvocation) (e : DelegateEntry) (err : String)
    (hr : llm [Message.system sp, Message.human q] = r)
    (htc : r.tool_calls = tc :: rest)
    (he : findRunner registry (argsGet tc.args "agent_name" "") = some e)
    (hfail : e.run (argsGet tc.args "task" "") = Except.error err) :
    Orchestrator.run llm registry sp q = Except.error err := by
  show orchLoop llm registry 10 [Message.system sp, Message.human q] []
    ⟨"", []⟩ = _
  rw [show (10 : Nat) = 9 + 1 from rfl]
  simp only [orchLoop, hr, htc, List.isEmpty_cons, Bool.false_eq_true,
    if_false, dispatchDelegations, he, hfail]

/-- Concrete supervisor provider for the C1 witness (same failing shape as
the counterexample, different payloads). -/
def cLlm1b : List Message → Response :=
  fun msgs =>
    if msgs.length == 2 then
      ⟨"", [⟨"delegate_to_agent",
        [("agent_name", "research"), ("task", "t2")], "id2"⟩]⟩
    else ⟨"fertig", []⟩

/-- Concrete registry for the C1 witness. -/
def cReg1b : List DelegateEntry :=
  [⟨"research", "Research Agent", fun _ => Except.error "kaput"⟩]

theorem C1_amended_witness :
    Orchestrator.run cLlm1b cReg1b "s" "q" = Except.error "kaput" :=
  C1_amended_delegate_failure_propagates cLlm1b cReg1b "s" "q"
    ⟨"", [⟨"delegate_to_agent",
      [("agent_name", "research"), ("task", "t2")], "id2"⟩]⟩
    ⟨"delegate_to_agent", [("agent_name", "research"), ("task", "t2")], "id2"⟩
    [] ⟨"research", "Research Agent", fun _ => Except.error "kaput"⟩ "kaput"
    rfl rfl rfl rfl

/-- C6: for a delegate invocation naming a registered agent, the supervisor
runs that delegate's full conversation loop on the invocation's task text
and appends a tool result whose text is exactly
`"[<display name>]: <answer>"`; for an unregistered name it appends a tool
result containing that name (the unknown-agent error text) and invokes no
registered delegate — the `agent_responses` log (`resp`) is unchanged and
the outcome involves no runner's `run`. -/
theorem C6_delegation_formatting
    (registry : List DelegateEntry) (tc : ToolInvocation)
    (rest : List ToolInvocation) (msgs : List Message)
    (resp : List (String × String)) :
    (∀ (e : DelegateEntry) (dLlm : List Message → Except String Response)
        (dTools : List Tool) (dSp : String) (rr : RunResult),
      findRunner registry (argsGet tc.args "agent_name" "") = some e →
      e.run = (fun task => Except.map RunResult.answer
        (AgentRunner.run dLlm dTools dSp task)) →
      AgentRunner.run dLlm dTools dSp (argsGet tc.args "task" "") =
        Except.ok rr →
      dispatchDelegations registry (tc :: rest) msgs resp =
        dispatchDelegations registry rest
          (msgs ++ [Message.tool
            ("[" ++ e.displayName ++ "]: " ++ rr.answer) tc.id])
          (resp ++ [(e.displayName, rr.answer)])) ∧
    (findRunner registry (argsGet tc.args "agent_name" "") = none →
      dispatchDelegations registry (tc :: rest) msgs resp =
        dispatchDelegations registry rest
          (msgs ++ [Message.tool
            ("Error: Unknown agent " ++ sq ++
              argsGet tc.args "agent_name" "" ++ sq) tc.id])
          resp ∧
      strContains
        ("Error: Unknown agent " ++ sq ++
          argsGet tc.args "agent_name" "" ++ sq)
        (argsGet tc.args "agent_name" "")) := by
  constructor
  · intro e dLlm dTools dSp rr he hrun hok
    simp only [dispatchDelegations, he, hrun, hok, Except.map]
  · intro he
    refine ⟨?_, "Error: Unknown agent " ++ sq, sq, rfl⟩
    simp only [dispatchDelegations, he]

/-- Concrete delegate provider for the C6 witness: answers `"X"` in one
terminal turn, so the delegate's full conversation loop returns `"X"`. -/
def wLlm6 : List Message → Except String Response :=
  fun _ => Except.ok ⟨"X", []⟩

/-- Concrete registry for the C6 witness: the delegate keyed `architekt`
with display name `Solution Architekt`, whose `run` is the embedded
conversation loop. -/
def wReg6 : List DelegateEntry :=
  [⟨"architekt", "Solution Architekt",
    fun task => Except.map RunResult.answer
      (AgentRunner.run wLlm6 [] "dsp" task)⟩]

theorem C6_delegation_formatting_witness :
    (dispatchDelegations wReg6
      [⟨"delegate_to_agent",
        [("agent_name", "architekt"), ("task", "T")], "id9"⟩] [] [] =
      Except.ok ([Message.tool "[Solution Architekt]: X" "id9"],
        [("Solution Architekt", "X")])) ∧
    (dispatchDelegations wReg6
      [⟨"delegate_to_agent",
        [("agent_name", "ghost"), ("task", "T")], "id8"⟩] [] [] =
      Except.ok ([Message.tool
        ("Error: Unknown agent " ++ sq ++ "ghost" ++ sq) "id8"], [])) ∧
    strContains ("Error: Unknown agent " ++ sq ++ "ghost" ++ sq) "ghost" := by
  refine ⟨?_, ?_, ?_⟩
  · have h := (C6_delegation_formatting wReg6
      ⟨"delegate_to_agent", [("agent_name", "architekt"), ("task", "T")],
        "id9"⟩ [] [] []).1
      ⟨"architekt", "Solution Architekt",
        fun task => Except.map RunResult.answer
          (AgentRunner.run wLlm6 [] "dsp" task)⟩
      wLlm6 [] "dsp"
      ⟨[Message.system "dsp", Message.human "T", Message.ai ⟨"X", []⟩],
        1, "X"⟩
      rfl rfl rfl
    rw [h]
    rfl
  · have h := (C6_delegation_formatting wReg6
      ⟨"delegate_to_agent", [("agent_name", "ghost"), ("task", "T")],
        "id8"⟩ [] [] []).2 rfl
    rw [h.1]
    rfl
  · exact ⟨"Error: Unknown agent " ++ sq, sq, rfl⟩

/-! ## Lemmas about the sequential Q&A pipeline -/

/-- The `Answer` that one iteration of `process_questions` appends for
question `q`, given the answers `prev` accumulated so far. -/
def stepAnswer (runAgent : String → String → Except String String)
    (context : String) (q : Question) (prev : List Answer) : Answer :=
  { question_number := q.number,
    question_line := q.original_line,
    question_text := q.text,
    answer_text :=
      match runAgent q.agent
        (buildFullQuery context (format_previous_answers prev) q.text) with
      | Except.ok r => r
      | Except.error e => "Fehler bei der Verarbeitung: " ++ e }

theorem processQuestionsGo_cons
    (runAgent : String → String → Except String String) (context : String)
    (q : Question) (rest : List Question) (answers : List Answer) :
    processQuestionsGo runAgent context (q :: rest) answers =
      processQuestionsGo runAgent context rest
        (answers ++ [stepAnswer runAgent context q answers]) := rfl

theorem processQuestionsGo_length
    (runAgent : String → String → Except String String) (context : String) :
    ∀ (qs : List Question) (acc : List Answer),
      (processQuestionsGo runAgent context qs acc).length =
        acc.length + qs.length := by
  intro qs
  induction qs with
  | nil => intro acc; simp [processQuestionsGo]
  | cons q rest ih =>
    intro acc
    rw [processQuestionsGo_cons, ih]
    simp
    omega

theorem processQuestionsGo_append
    (runAgent : String → String → Except String String) (context : String) :
    ∀ (qs : List Question) (acc : List Answer),
      ∃ t, processQuestionsGo runAgent context qs acc = acc ++ t := by
  intro qs
  induction qs with
  | nil => intro acc; exact ⟨[], by simp [processQuestionsGo]⟩
  | cons q rest ih =>
    intro acc
    obtain ⟨t, ht⟩ := ih (acc ++ [stepAnswer runAgent context q acc])
    rw [processQuestionsGo_cons, ht]
    exact ⟨[stepAnswer runAgent context q acc] ++ t, by simp⟩

theorem processQuestionsGo_spec
    (runAgent : String → String → Except String String) (context : String) :
    ∀ (qs : List Question) (acc : List Answer) (i : Nat) (q : Question),
      qs[i]? = some q →
      (processQuestionsGo runAgent context qs acc)[acc.length + i]? =
        some (stepAnswer runAgent context q
          ((processQuestionsGo runAgent context qs acc).take
            (acc.length + i))) := by
  intro qs
  induction qs with
  | nil => intro acc i q hq; simp at hq
  | cons p rest ih =>
    intro acc i q hq
    rw [processQuestionsGo_cons]
    cases i with
    | zero =>
      have hpq : p = q := by simpa using hq
      subst hpq
      obtain ⟨t, ht⟩ := processQuestionsGo_append runAgent context rest
        (acc ++ [stepAnswer runAgent context p acc])
      rw [ht]
      have htake : ((acc ++ [stepAnswer runAgent context p acc]) ++ t).take
          (acc.length + 0) = acc := by
        rw [Nat.add_zero, List.append_assoc]
        exact List.take_left' rfl
      have hget : ((acc ++ [stepAnswer runAgent context p acc]) ++
          t)[acc.length + 0]? = some (stepAnswer runAgent context p acc) := by
        rw [Nat.add_zero, List.append_assoc,
          List.getElem?_append_right (Nat.le_refl _)]
        simp
      rw [hget, htake]
    | succ i =>
      have hq2 : rest[i]? = some q := by simpa using hq
      have := ih (acc ++ [stepAnswer runAgent context p acc]) i q hq2
      have hlen : (acc ++ [stepAnswer runAgent context p acc]).length + i =
          acc.length + (i + 1) := by simp; omega
      rwa [hlen] at this

/-- C7: `process_questions` returns exactly one `Answer` per question, in
question order; an iteration whose underlying conversation-loop call raises
records the failure-placeholder answer for that question and the pipeline
continues (it is total, so a single question's failure never aborts it). -/
theorem C7_pipeline_isolation
    (runAgent : String → String → Except String String)
    (context : String) (qs : List Question) :
    (process_questions runAgent context qs).length = qs.length ∧
    (∀ (i : Nat) (q : Question), qs[i]? = some q →
      (process_questions runAgent context qs)[i]? =
        some (stepAnswer runAgent context q
          ((process_questions runAgent context qs).take i)) ∧
      (stepAnswer runAgent context q
        ((process_questions runAgent context qs).take i)).question_number =
        q.number ∧
      (∀ e, runAgent q.agent
          (buildFullQuery context
            (format_previous_answers
              ((process_questions runAgent context qs).take i)) q.text) =
            Except.error e →
        (stepAnswer runAgent context q
          ((process_questions runAgent context qs).take i)).answer_text =
          "Fehler bei der Verarbeitung: " ++ e)) := by
  constructor
  · have := processQuestionsGo_length runAgent context qs []
    simpa [process_questions] using this
  · intro i q hq
    refine ⟨?_, rfl, ?_⟩
    · have := processQuestionsGo_spec runAgent context qs [] i q hq
      simpa [process_questions] using this
    · intro e he
      simp [stepAnswer, he]

/-- Concrete loop stub for the C7 witness: raises on the first question's
prompt shape, answers the second. -/
def wRun7 : String → String → Except String String :=
  fun agent _ =>
    if agent == "research" then Except.error "boom" else Except.ok "fine"

/-- Concrete questions for the C7 witness. -/
def wQs7 : List Question :=
  [⟨1, "research", "A?", 0, "1. A?"⟩, ⟨2, "architekt", "B?", 1, "2. B?"⟩]

theorem C7_pipeline_isolation_witness :
    (process_questions wRun7 "C" wQs7).length = 2 ∧
    (process_questions wRun7 "C" wQs7)[0]? =
      some (stepAnswer wRun7 "C" ⟨1, "research", "A?", 0, "1. A?"⟩ []) ∧
    (stepAnswer wRun7 "C" ⟨1, "research", "A?", 0, "1. A?"⟩ []).answer_text =
      "Fehler bei der Verarbeitung: " ++ "boom" ∧
    (process_questions wRun7 "C" wQs7)[1]? =
      some (stepAnswer wRun7 "C" ⟨2, "architekt", "B?", 1, "2. B?"⟩
        ((process_questions wRun7 "C" wQs7).take 1)) := by
  obtain ⟨hlen, hspec⟩ := C7_pipeline_isolation wRun7 "C" wQs7
  obtain ⟨hget0, _, herr0⟩ := hspec 0 ⟨1, "research", "A?", 0, "1. A?"⟩ rfl
  obtain ⟨hget1, _, _⟩ := hspec 1 ⟨2, "architekt", "B?", 1, "2. B?"⟩ rfl
  refine ⟨hlen, ?_, ?_, hget1⟩
  · rw [hget0]
    rfl
  · have := herr0 "boom" (by rfl)
    simpa using this

/-! ## Substring lemmas for the prompt construction -/

theorem strContains_trans (a b c : String) (h1 : strContains a b)
    (h2 : strContains b c) : strContains a c := by
  obtain ⟨x, y, hxy⟩ := h1
  obtain ⟨u, v, huv⟩ := h2
  exact ⟨x ++ u, v ++ y, by rw [hxy, huv]; simp [String.append_assoc]⟩

theorem joinWith_mem_contains (sep : String) :
    ∀ (parts : List String) (x : String), x ∈ parts →
      strContains (joinWith sep parts) x := by
  intro parts
  induction parts with
  | nil => intro x hx; simp at hx
  | cons p rest ih =>
    intro x hx
    rcases List.mem_cons.mp hx with hxp | hxr
    · subst hxp
      cases rest with
      | nil => exact ⟨"", "", by simp [joinWith]⟩
      | cons a l =>
        exact ⟨"", sep ++ joinWith sep (a :: l),
          by simp [joinWith, String.append_assoc]⟩
    · have hne : rest ≠ [] := List.ne_nil_of_mem hxr
      match rest, hne, hxr with
      | a :: l, _, hxr =>
        obtain ⟨u, v, huv⟩ := ih x hxr
        exact ⟨p ++ sep ++ u, v,
          by simp [joinWith, huv, String.append_assoc]⟩

theorem joinWith_cons_head (sep p : String) (rest : List String) :
    ∃ r, joinWith sep (p :: rest) = p ++ r := by
  cases rest with
  | nil => exact ⟨"", by simp [joinWith]⟩
  | cons a l =>
    exact ⟨sep ++ joinWith sep (a :: l),
      by simp [joinWith, String.append_assoc]⟩

theorem append_ne_empty_left (s t : String) (h : s ≠ "") : s ++ t ≠ "" := by
  intro hc
  apply h
  apply String.ext
  have hd : s.data ++ t.data = [] := by rw [← String.data_append, hc]
  exact (List.append_eq_nil.mp hd).1

theorem format_previous_answers_ne_empty (answers : List Answer)
    (h : answers ≠ []) : format_previous_answers answers ≠ "" := by
  have hie : answers.isEmpty = false := by
    cases answers with
    | nil => exact absurd rfl h
    | cons a l => rfl
  simp only [format_previous_answers, hie, Bool.false_eq_true, if_false]
  obtain ⟨r, hr⟩ := joinWith_cons_head "\n" "Bisherige Fragen und Antworten:\n"
    (answers.map (fun a => "### " ++ a.question_text ++ "\n" ++
      a.answer_text ++ "\n"))
  rw [hr]
  exact append_ne_empty_left _ _ (by decide)

theorem format_previous_answers_contains (answers : List Answer) (a : Answer)
    (ha : a ∈ answers) :
    strContains (format_previous_answers answers) a.answer_text := by
  have hie : answers.isEmpty = false := by
    cases answers with
    | nil => simp at ha
    | cons x l => rfl
  simp only [format_previous_answers, hie, Bool.false_eq_true, if_false]
  have hmem : "### " ++ a.question_text ++ "\n" ++ a.answer_text ++ "\n" ∈
      ("Bisherige Fragen und Antworten:\n" ::
        answers.map (fun a => "### " ++ a.question_text ++ "\n" ++
          a.answer_text ++ "\n")) :=
    List.mem_cons.mpr (Or.inr (List.mem_map_of_mem _ ha))
  have h1 := joinWith_mem_contains "\n" _ _ hmem
  exact strContains_trans _ _ _ h1
    ⟨"### " ++ a.question_text ++ "\n", "\n",
      by simp [String.append_assoc]⟩

theorem buildFullQuery_contains (context prevCtx qtext : String)
    (hne : prevCtx ≠ "") :
    strContains (buildFullQuery context prevCtx qtext) context ∧
    strContains (buildFullQuery context prevCtx qtext) prevCtx ∧
    strContains (buildFullQuery context prevCtx qtext) qtext := by
  simp only [buildFullQuery, if_neg hne]
  refine ⟨⟨"Kontext:\n", "\n\n" ++ prevCtx ++ "\n\nAktuelle Frage:\n" ++
      qtext ++
      "\n\nBitte beantworte die Frage basierend auf dem Kontext und den bisherigen Antworten.",
      by simp [String.append_assoc]⟩,
    ⟨"Kontext:\n" ++ context ++ "\n\n", "\n\nAktuelle Frage:\n" ++ qtext ++
      "\n\nBitte beantworte die Frage basierend auf dem Kontext und den bisherigen Antworten.",
      by simp [String.append_assoc]⟩,
    ⟨"Kontext:\n" ++ context ++ "\n\n" ++ prevCtx ++ "\n\nAktuelle Frage:\n",
      "\n\nBitte beantworte die Frage basierend auf dem Kontext und den bisherigen Antworten.",
      by simp [String.append_assoc]⟩⟩

/-- C9: for every question after the first, the prompt the pipeline passes
to the conversation loop — the one the recorded answer is computed from —
contains the fixed document context, the literal answer text of every
previously produced answer (each rendered inside its labeled context
block), and the current question's text; in particular question 2's prompt
contains the literal text of answer 1. -/
theorem C9_prompt_contains_previous
    (runAgent : String → String → Except String String)
    (context : String) (qs : List Question) (i : Nat) (q : Question)
    (hi : 1 ≤ i) (hq : qs[i]? = some q) :
    (process_questions runAgent context qs)[i]? =
      some (stepAnswer runAgent context q
        ((process_questions runAgent context qs).take i)) ∧
    strContains
      (buildFullQuery context
        (format_previous_answers
          ((process_questions runAgent context qs).take i)) q.text)
      context ∧
    (∀ a ∈ (process_questions runAgent context qs).take i,
      strContains
        (buildFullQuery context
          (format_previous_answers
            ((process_questions runAgent context qs).take i)) q.text)
        a.answer_text) ∧
    strContains
      (buildFullQuery context
        (format_previous_answers
          ((process_questions runAgent context qs).take i)) q.text)
      q.text := by
  have hilen : i < qs.length := by
    rcases List.getElem?_eq_some.mp hq with ⟨h, _⟩
    exact h
  have hreslen : (process_questions runAgent context qs).length = qs.length := by
    have := processQuestionsGo_length runAgent context qs []
    simpa [process_questions] using this
  have htne : (process_questions runAgent context qs).take i ≠ [] := by
    intro hc
    have hlen0 : min i (process_questions runAgent context qs).length = 0 := by
      simpa [List.length_take] using congrArg List.length hc
    rw [hreslen] at hlen0
    omega
  have hpne : format_previous_answers
      ((process_questions runAgent context qs).take i) ≠ "" :=
    format_previous_answers_ne_empty _ htne
  obtain ⟨hc1, hc2, hc3⟩ := buildFullQuery_contains context
    (format_previous_answers
      ((process_questions runAgent context qs).take i)) q.text hpne
  refine ⟨?_, hc1, ?_, hc3⟩
  · have := processQuestionsGo_spec runAgent context qs [] i q hq
    simpa [process_questions] using this
  · intro a ha
    exact strContains_trans _ _ _ hc2
      (format_previous_answers_contains _ a ha)

/-- Concrete loop stub for the C9 witness. -/
def wRun9 : String → String → Except String String :=
  fun _ _ => Except.ok "ERSTE-ANTWORT"

/-- Concrete questions for the C9 witness. -/
def wQs9 : List Question :=
  [⟨1, "research", "A?", 0, "1. A?"⟩, ⟨2, "research", "B?", 1, "2. B?"⟩]

theorem C9_prompt_contains_previous_witness :
    (process_questions wRun9 "CTX" wQs9).take 1 =
      [⟨1, "1. A?", "A?", "ERSTE-ANTWORT"⟩] ∧
    strContains
      (buildFullQuery "CTX"
        (format_previous_answers
          ((process_questions wRun9 "CTX" wQs9).take 1)) "B?")
      "ERSTE-ANTWORT" ∧
    strContains
      (buildFullQuery "CTX"
        (format_previous_answers
          ((process_questions wRun9 "CTX" wQs9).take 1)) "B?")
      "CTX" := by
  obtain ⟨h1, h2, h3, h4⟩ := C9_prompt_contains_previous wRun9 "CTX" wQs9 1
    ⟨2, "research", "B?", 1, "2. B?"⟩ (by norm_num) rfl
  have htake : (process_questions wRun9 "CTX" wQs9).take 1 =
      [⟨1, "1. A?", "A?", "ERSTE-ANTWORT"⟩] := by rfl
  refine ⟨htake, ?_, h2⟩
  have := h3 ⟨1, "1. A?", "A?", "ERSTE-ANTWORT"⟩ (by rw [htake]; exact List.mem_singleton.mpr rfl)
  simpa using this

/-! ## Lemmas about answer insertion (C10)

The key invariant: while skipping a stale-answer region, the writer never
consumes a line whose stripped text matches the numbered-question pattern,
so every occurrence of a pattern-matching question line is examined by the
outer loop's map lookup.
-/

theorem charsLead_head (c d : Char) (t l : List Char)
    (h : charsLead (c :: t) (d :: l) = true) : c = d := by
  simp only [charsLead, Bool.and_eq_true, beq_iff_eq] at h
  exact h.1

theorem questionPatternMatch_head_digit (s : String)
    (h : questionPatternMatch s = true) :
    ∃ c cs, s.data = c :: cs ∧ c.isDigit = true := by
  have hds : s.data.takeWhile Char.isDigit ≠ [] := by
    intro hnil
    simp only [questionPatternMatch] at h
    rw [hnil] at h
    split at h
    · simp at h
    · exact absurd h (by simp)
  cases hl : s.data with
  | nil =>
    rw [hl] at hds
    exact absurd rfl hds
  | cons c cs =>
    rw [hl] at hds
    by_cases hp : c.isDigit = true
    · exact ⟨c, cs, rfl, hp⟩
    · rw [List.takeWhile_cons] at hds
      simp [hp] at hds

theorem questionPatternMatch_key_ne (key : String)
    (hk : questionPatternMatch key = true) :
    ∀ l : String,
      (pstrip l = "" ∨ questionPatternMatch (pstrip l) = false ∨
        pyStartsWith (pstrip l) "**Antwort:**" = true ∨
        pyStartsWith (pstrip l) "###" = true) →
      pstrip l ≠ key := by
  intro l hcase heq
  obtain ⟨c, cs, hdata, hdigit⟩ := questionPatternMatch_head_digit key hk
  rcases hcase with h0 | h0 | h0 | h0
  · rw [h0] at heq
    rw [← heq] at hdata
    simp at hdata
  · rw [heq] at h0
    rw [h0] at hk
    exact absurd hk (by simp)
  · rw [heq] at h0
    simp only [pyStartsWith] at h0
    rw [hdata] at h0
    have := charsLead_head _ _ _ _ h0
    rw [← this] at hdigit
    exact absurd hdigit (by decide)
  · rw [heq] at h0
    simp only [pyStartsWith] at h0
    rw [hdata] at h0
    have := charsLead_head _ _ _ _ h0
    rw [← this] at hdigit
    exact absurd hdigit (by decide)

/-- A line that one of the skip loops may consume: blank, not
question-pattern shaped, or the start of a stale `###`/`**Antwort:**`
block. -/
def droppableLine (l : String) : Prop :=
  pstrip l = "" ∨ questionPatternMatch (pstrip l) = false ∨
    pyStartsWith (pstrip l) "**Antwort:**" = true ∨
    pyStartsWith (pstrip l) "###" = true

theorem skipIndented_dropped (ls : List String) :
    ∃ d, ls = d ++ skipIndented ls ∧ ∀ l ∈ d, droppableLine l := by
  induction ls with
  | nil => exact ⟨[], rfl, by simp⟩
  | cons l rest ih =>
    simp only [skipIndented]
    split
    · split
      · exact ⟨[], rfl, by simp⟩
      · obtain ⟨d, hd, hprop⟩ := ih
        refine ⟨l :: d, by rw [List.cons_append, ← hd], ?_⟩
        intro x hx
        rcases List.mem_cons.mp hx with hxl | hxd
        · subst hxl
          rename_i hcond hnq
          rw [Bool.and_eq_true, not_and_or] at hnq
          rcases hnq with h1 | h1
          · left
            simp only [bne, Bool.not_eq_true] at h1
            simpa [beq_iff_eq] using h1
          · right; left
            simpa using h1
        · exact hprop x hxd
    · exact ⟨[], rfl, by simp⟩

theorem skipOldAnswersGo_dropped :
    ∀ fuel (ls : List String),
      ∃ d, ls = d ++ skipOldAnswersGo fuel ls ∧ ∀ l ∈ d, droppableLine l := by
  intro fuel
  induction fuel with
  | zero => intro ls; exact ⟨[], rfl, by simp⟩
  | succ n ih =>
    intro ls
    cases ls with
    | nil => exact ⟨[], by simp [skipOldAnswersGo], by simp⟩
    | cons l rest =>
      simp only [skipOldAnswersGo]
      split
      · exact ⟨[], rfl, by simp⟩
      · split
        · obtain ⟨d1, hd1, hp1⟩ := skipIndented_dropped rest
          obtain ⟨d2, hd2, hp2⟩ := ih (skipIndented rest)
          refine ⟨l :: (d1 ++ d2), ?_, ?_⟩
          · rw [List.cons_append, List.append_assoc, ← hd2, ← hd1]
          · intro x hx
            rcases List.mem_cons.mp hx with hxl | hxd
            · subst hxl
              rename_i hcond
              rw [Bool.or_eq_true] at hcond
              rcases hcond with h1 | h1
              · right; right; left; exact h1
              · right; right; right; exact h1
            · rcases List.mem_append.mp hxd with hx1 | hx2
              · exact hp1 x hx1
              · exact hp2 x hx2
        · split
          · obtain ⟨d, hd, hprop⟩ := ih rest
            refine ⟨l :: d, by rw [List.cons_append, ← hd], ?_⟩
            intro x hx
            rcases List.mem_cons.mp hx with hxl | hxd
            · subst hxl
              left
              rename_i hblank
              simpa [beq_iff_eq] using hblank
            · exact hprop x hxd
          · exact ⟨[], rfl, by simp⟩

theorem writeLoopGo_count (lookup : String → Option Answer) (key : String)
    (a : Answer) (hk : questionPatternMatch key = true)
    (hl : lookup key = some a) :
    ∀ fuel (ls : List String), ls.length ≤ fuel →
      ls.countP (fun l => pstrip l == key) ≤
        (writeLoopGo lookup fuel ls).count a.answer_text := by
  intro fuel
  induction fuel with
  | zero =>
    intro ls h
    have : ls = [] := List.eq_nil_of_length_eq_zero (Nat.le_zero.mp h)
    subst this
    simp
  | succ n ih =>
    intro ls h
    cases ls with
    | nil => simp
    | cons line rest =>
      have hr : rest.length ≤ n := Nat.le_of_succ_le_succ (by simpa using h)
      cases hlu : lookup (pstrip line) with
      | none =>
        have hne : (pstrip line == key) = false := by
          by_cases hpk : pstrip line = key
          · rw [hpk] at hlu
            rw [hlu] at hl
            cases hl
          · simpa using hpk
        simp only [writeLoopGo, hlu]
        rw [List.countP_cons, hne]
        simp only [Bool.false_eq_true, if_false, Nat.add_zero]
        calc rest.countP (fun l => pstrip l == key)
            ≤ (writeLoopGo lookup n rest).count a.answer_text := ih rest hr
          _ ≤ (line :: writeLoopGo lookup n rest).count a.answer_text :=
            List.count_le_count_cons _ _ _
      | some a2 =>
        obtain ⟨d, hd, hprop⟩ := skipOldAnswersGo_dropped rest.length rest
        have hsk : skipOldAnswers rest = skipOldAnswersGo rest.length rest :=
          rfl
        have hdkey : ∀ x ∈ d, ¬ ((pstrip x == key) = true) := by
          intro x hx hbeq
          exact questionPatternMatch_key_ne key hk x (hprop x hx)
            (by simpa using hbeq)
        have hcrest : rest.countP (fun l => pstrip l == key) =
            (skipOldAnswers rest).countP (fun l => pstrip l == key) := by
          conv_lhs => rw [hd]
          rw [List.countP_append, hsk]
          have hz : d.countP (fun l => pstrip l == key) = 0 :=
            List.countP_eq_zero.mpr hdkey
          omega
        have hsklen : (skipOldAnswers rest).length ≤ n :=
          le_trans (skipOldAnswers_length_le rest) hr
        have ihsk := ih (skipOldAnswers rest) hsklen
        simp only [writeLoopGo, hlu]
        rw [List.countP_cons]
        by_cases hpk : pstrip line = key
        · have hbq : (pstrip line == key) = true := by simpa using hpk
          rw [hbq]
          simp only [if_true]
          rw [hpk] at hlu
          rw [hl] at hlu
          have ha2 : a = a2 := Option.some.inj hlu
          subst ha2
          calc rest.countP (fun l => pstrip l == key) + 1
              = (skipOldAnswers rest).countP (fun l => pstrip l == key) + 1 :=
                by rw [hcrest]
            _ ≤ (writeLoopGo lookup n (skipOldAnswers rest)).count
                  a.answer_text + 1 := by omega
            _ ≤ ("" :: writeLoopGo lookup n (skipOldAnswers rest)).count
                  a.answer_text + 1 := by
                have := List.count_le_count_cons a.answer_text ""
                  (writeLoopGo lookup n (skipOldAnswers rest))
                omega
            _ = (a.answer_text :: "" ::
                  writeLoopGo lookup n (skipOldAnswers rest)).count
                  a.answer_text := (List.count_cons_self _ _).symm
            _ ≤ ("" :: a.answer_text :: "" ::
                  writeLoopGo lookup n (skipOldAnswers rest)).count
                  a.answer_text := List.count_le_count_cons _ _ _
            _ ≤ (("### " ++ a.question_text) :: "" :: a.answer_text :: "" ::
                  writeLoopGo lookup n (skipOldAnswers rest)).count
                  a.answer_text := List.count_le_count_cons _ _ _
        · have hbq : (pstrip line == key) = false := by simpa using hpk
          rw [hbq]
          simp only [Bool.false_eq_true, if_false, Nat.add_zero]
          rw [hcrest]
          calc (skipOldAnswers rest).countP (fun l => pstrip l == key)
              ≤ (writeLoopGo lookup n (skipOldAnswers rest)).count
                  a.answer_text := ihsk
            _ ≤ ("" :: writeLoopGo lookup n (skipOldAnswers rest)).count
                  a.answer_text := List.count_le_count_cons _ _ _
            _ ≤ (a2.answer_text :: "" ::
                  writeLoopGo lookup n (skipOldAnswers rest)).count
                  a.answer_text := List.count_le_count_cons _ _ _
            _ ≤ ("" :: a2.answer_text :: "" ::
                  writeLoopGo lookup n (skipOldAnswers rest)).count
                  a.answer_text := List.count_le_count_cons _ _ _
            _ ≤ (("### " ++ a2.question_text) :: "" :: a2.answer_text :: "" ::
                  writeLoopGo lookup n (skipOldAnswers rest)).count
                  a.answer_text := List.count_le_count_cons _ _ _

theorem answerMapLookup_no_match (key : String) :
    ∀ (l : List Answer) (acc : Option Answer),
      (∀ b ∈ l, pstrip b.question_line ≠ key) →
      l.foldl (fun acc a =>
        if pstrip a.question_line == key then some a else acc) acc = acc := by
  intro l
  induction l with
  | nil => intro acc h; rfl
  | cons b rest ih =>
    intro acc h
    have hb : pstrip b.question_line ≠ key := h b (List.mem_cons_self b rest)
    have hbeq : (pstrip b.question_line == key) = false := by simpa using hb
    simp only [List.foldl_cons, hbeq, Bool.false_eq_true, if_false]
    exact ih acc (fun x hx => h x (List.mem_cons_of_mem _ hx))

theorem answerMapLookup_last (l1 l2 l3 : List Answer) (a1 a2 : Answer)
    (hlast : ∀ b ∈ l3, pstrip b.question_line ≠ pstrip a2.question_line) :
    answerMapLookup (l1 ++ a1 :: l2 ++ a2 :: l3)
      (pstrip a2.question_line) = some a2 := by
  simp only [answerMapLookup, List.foldl_append, List.foldl_cons,
    beq_self_eq_true, if_true]
  exact answerMapLookup_no_match _ l3 (some a2) hlast

theorem answerMapLookup_independent (l1 l2 l3 : List Answer)
    (a1 a1' a2 : Answer)
    (hkey : pstrip a1.question_line = pstrip a2.question_line)
    (hkey' : pstrip a1'.question_line = pstrip a2.question_line)
    (k : String) :
    answerMapLookup (l1 ++ a1' :: l2 ++ a2 :: l3) k =
      answerMapLookup (l1 ++ a1 :: l2 ++ a2 :: l3) k := by
  simp only [answerMapLookup, List.foldl_append, List.foldl_cons]
  by_cases hk : k = pstrip a2.question_line
  · subst hk
    simp only [beq_self_eq_true, if_true]
  · have hb1 : (pstrip a1.question_line == k) = false := by
      simp only [beq_eq_false_iff_ne, ne_eq]
      rw [hkey]
      exact fun hc => hk hc.symm
    have hb1' : (pstrip a1'.question_line == k) = false := by
      simp only [beq_eq_false_iff_ne, ne_eq]
      rw [hkey']
      exact fun hc => hk hc.symm
    simp only [hb1, hb1', Bool.false_eq_true, if_false]

theorem write_answers_lookup_only (orig : String) (ans1 ans2 : List Answer)
    (h : ∀ k, answerMapLookup ans1 k = answerMapLookup ans2 k) :
    write_answers_to_markdown orig ans1 =
      write_answers_to_markdown orig ans2 := by
  have hfun : answerMapLookup ans1 = answerMapLookup ans2 := funext h
  simp only [write_answers_to_markdown, hfun]

/-- First duplicate-keyed answer of the C10 counterexample. -/
def cA1 : Answer := ⟨1, "### Q", "Q", "old"⟩

/-- Second (later) duplicate-keyed answer of the C10 counterexample. -/
def cA2 : Answer := ⟨1, "### Q", "Q", "new"⟩

/-- C10 counterexample: with two answers carrying the identical question
line `"### Q"` and a document containing that line twice, the later
answer's text is inserted only once — the writer's stale-answer skip
consumes the second occurrence (its stripped text starts with `"###"`), so
the claim's "inserted under every occurrence of that line" fails as
universally stated. -/
theorem C10_counterexample :
    (pySplitLines "### Q\n### Q").countP
      (fun l => pstrip l == pstrip cA2.question_line) = 2 ∧
    (writeLoop (answerMapLookup [cA1, cA2])
      (pySplitLines "### Q\n### Q")).count cA2.answer_text = 1 := by
  constructor
  · decide
  · decide

/-- C10 (amended): `write_answers_to_markdown` matches answers to document
lines by the stripped text of the answer's original question line, and for
duplicate stripped lines the answer map retains the last such answer in the
list.  Provided the shared stripped text matches the numbered-question
pattern — as every parser-produced question line does — that last answer's
text is inserted at least once per occurrence of the stripped line in the
document, and the output never depends on the content of the overwritten
earlier answer. -/
theorem C10_amended_duplicate_question_lines
    (orig : String) (l1 l2 l3 : List Answer) (a1 a2 : Answer)
    (hkey : pstrip a1.question_line = pstrip a2.question_line)
    (hlast : ∀ b ∈ l3, pstrip b.question_line ≠ pstrip a2.question_line)
    (hq : questionPatternMatch (pstrip a2.question_line) = true) :
    answerMapLookup (l1 ++ a1 :: l2 ++ a2 :: l3)
      (pstrip a2.question_line) = some a2 ∧
    (pySplitLines orig).countP
      (fun l => pstrip l == pstrip a2.question_line) ≤
      (writeLoop (answerMapLookup (l1 ++ a1 :: l2 ++ a2 :: l3))
        (pySplitLines orig)).count a2.answer_text ∧
    (∀ a1', pstrip a1'.question_line = pstrip a2.question_line →
      write_answers_to_markdown orig (l1 ++ a1' :: l2 ++ a2 :: l3) =
        write_answers_to_markdown orig (l1 ++ a1 :: l2 ++ a2 :: l3)) := by
  have hlook := answerMapLookup_last l1 l2 l3 a1 a2 hlast
  refine ⟨hlook, ?_, ?_⟩
  · exact writeLoopGo_count (answerMapLookup (l1 ++ a1 :: l2 ++ a2 :: l3))
      (pstrip a2.question_line) a2 hq hlook (pySplitLines orig).length
      (pySplitLines orig) (Nat.le_refl _)
  · intro a1' hkey'
    exact write_answers_lookup_only orig _ _
      (answerMapLookup_independent l1 l2 l3 a1 a1' a2 hkey hkey')

/-- First duplicate-keyed answer of the C10 witness. -/
def wA1 : Answer := ⟨1, "1. Q?", "Q", "old"⟩

/-- Second (later) duplicate-keyed answer of the C10 witness. -/
def wA2 : Answer := ⟨1, "1. Q?", "Q", "new"⟩

theorem C10_amended_witness :
    answerMapLookup [wA1, wA2] (pstrip wA2.question_line) = some wA2 ∧
    (pySplitLines "1. Q?\nx\n1. Q?").countP
      (fun l => pstrip l == pstrip wA2.question_line) = 2 ∧
    (writeLoop (answerMapLookup [wA1, wA2])
      (pySplitLines "1. Q?\nx\n1. Q?")).count wA2.answer_text = 2 ∧
    write_answers_to_markdown "1. Q?\nx\n1. Q?"
        [⟨1, "1. Q?", "Q", "something else entirely"⟩, wA2] =
      write_answers_to_markdown "1. Q?\nx\n1. Q?" [wA1, wA2] := by
  obtain ⟨h1, h2, h3⟩ := C10_amended_duplicate_question_lines
    "1. Q?\nx\n1. Q?" [] [] [] wA1 wA2 rfl (by simp) (by decide)
  refine ⟨h1, by decide, ?_, ?_⟩
  · have hc : (pySplitLines "1. Q?\nx\n1. Q?").countP
        (fun l => pstrip l == pstrip wA2.question_line) = 2 := by decide
    have hl : ([] ++ wA1 :: [] ++ wA2 :: [] : List Answer) = [wA1, wA2] := rfl
    have hcount := h2
    rw [hl, hc] at hcount
    have hub : (writeLoop (answerMapLookup [wA1, wA2])
        (pySplitLines "1. Q?\nx\n1. Q?")).count wA2.answer_text ≤ 2 := by
      decide
    omega
  · exact h3 ⟨1, "1. Q?", "Q", "something else entirely"⟩ rfl

end FSCM
